import Mathlib

/-!
Verification of the scan → match → replicate → remove pipeline of the
solo-cheetah file-upload agent, as a shallow embedding in Lean 4.

Each definition in this file is a direct translation of a Go function of the
repository (package and function named in its doc comment).  The filesystem is
modelled as the finite set of paths that exist (`Finset String`); fallible
operations return `Except`/`Option`; time is modelled as a trace of sleep
durations in nanoseconds; channel-based concurrency is modelled by explicit
lists of emitted values.
-/

namespace Cheetah

/-! ### Go standard-library path primitives

`path.Clean`, `filepath.Join`, `filepath.Ext`, `path.Split` as used by the
sources (on Linux, `filepath` coincides with `path`: separator `/`).
-/

/-- One step of Go `path.Clean`: process the `/`-separated elements keeping an
output stack (reversed).  `..` pops a non-`..` top; at the root it is dropped
when the path is rooted and kept otherwise; `""` and `"."` elements vanish. -/
def cleanElems (rooted : Bool) : List String → List String → List String
  | [], acc => acc.reverse
  | e :: rest, acc =>
    if e = "" ∨ e = "." then cleanElems rooted rest acc
    else if e = ".." then
      match acc with
      | [] => if rooted then cleanElems rooted rest [] else cleanElems rooted rest [".."]
      | a :: acc' =>
        if a = ".." then cleanElems rooted rest (e :: a :: acc')
        else cleanElems rooted rest acc'
    else cleanElems rooted rest (e :: acc)

/-- `strings.Split` on the separator `/`, structurally on the character list
(the accumulator carries the current element reversed). -/
def splitSlash : List Char → List Char → List String
  | [], cur => [String.mk cur.reverse]
  | c :: rest, cur =>
    if c = '/' then String.mk cur.reverse :: splitSlash rest []
    else splitSlash rest (c :: cur)

/-- Join path elements with `/` (inverse of `splitSlash` on clean output). -/
def joinSlash : List String → String
  | [] => ""
  | [e] => e
  | e :: rest => e ++ "/" ++ joinSlash rest

/-- Go `path.Clean` (lexical path normalization). -/
def pathClean (p : String) : String :=
  if p = "" then "." else
  let rooted := p.toList.head? = some '/'
  let out := cleanElems rooted (splitSlash p.toList []) []
  let joined := joinSlash out
  if rooted then "/" ++ joined
  else if joined = "" then "." else joined

/-- Go `filepath.Join` restricted to two elements as the sources use it:
empty elements are skipped, the rest are joined with `/` and cleaned. -/
def filepathJoin (a b : String) : String :=
  if a = "" then (if b = "" then "" else pathClean b)
  else pathClean (a ++ "/" ++ b)

/-- Helper for `filepathExt`: scan the reversed character list; a dot before
any separator marks the extension, whose tail characters are carried in
`acc` in source order. -/
def extGo : List Char → List Char → String
  | [], _ => ""
  | c :: rest, acc =>
    if c = '/' then ""
    else if c = '.' then String.mk ('.' :: acc)
    else extGo rest (c :: acc)

/-- Go `filepath.Ext` / `path.Ext`: the suffix beginning at the final dot in
the final slash-separated element; empty if there is no dot. -/
def filepathExt (p : String) : String :=
  extGo p.toList.reverse []

/-- Helper for `pathSplit`: characters of the final element, scanning the
reversed list up to the first separator. -/
def lastElemRev : List Char → List Char → List Char
  | [], acc => acc
  | c :: rest, acc => if c = '/' then acc else lastElemRev rest (c :: acc)

/-- Go `path.Split`: splits after the final slash, the directory keeps its
trailing slash. -/
def pathSplit (p : String) : String × String :=
  let file := String.mk (lastElemRev p.toList.reverse [])
  let dir := String.mk (p.toList.take (p.toList.length - file.toList.length))
  (dir, file)

/-- `fsx.SplitFilePath` (pkg/fsx): directory (with trailing slash), file name
without its final extension, and the extension. -/
def SplitFilePath (filePath : String) : String × String × String :=
  let (dir, file) := pathSplit filePath
  let ext := filepathExt file
  let fileNameWithoutExt := String.mk (file.toList.take (file.toList.length - ext.toList.length))
  (dir, fileNameWithoutExt, ext)

/-- `strings.TrimPrefix`: drop `pfx` from the front of `s` when it is there. -/
def trimPfx (s pfx : String) : String :=
  if pfx.toList.isPrefixOf s.toList then String.mk (s.toList.drop pfx.toList.length) else s

/-! ### Go string ordering

Go's `sort.Strings` / `slices.Sort` order strings by bytewise lexicographic
comparison; on valid UTF-8 this coincides with comparison of the code-point
sequences, which is what `charListLe` computes.  `List.insertionSort` with a
total transitive relation produces the same output as any comparison sort. -/

/-- Lexicographic comparison of code-point sequences (Go string `<=`). -/
def charListLe : List Char → List Char → Bool
  | [], _ => true
  | _ :: _, [] => false
  | a :: as, b :: bs =>
    if a.val.toNat < b.val.toNat then true
    else if b.val.toNat < a.val.toNat then false
    else charListLe as bs

/-- Go string comparison `a <= b`. -/
def goStringLe (a b : String) : Bool := charListLe a.toList b.toList

/-- Go `sort.Strings` / `slices.Sort` (ascending). -/
def sortStrings (l : List String) : List String :=
  List.insertionSort (fun a b => goStringLe a b = true) l

/-! ### Sequential file matcher (internal/matcher, `sequentialFileMatcher.MatchFiles`)

The filesystem is the finite set `fs` of existing paths; `os.Stat` succeeding
is membership in `fs`.  The `regexp.MustCompile("#+")` replacement of each
maximal run of `#` by a `%0<len>d` verb, followed by `fmt.Sprintf(filePattern,
i+1)`, is modelled by parsing the pattern into literal/verb items (`toFormat`)
and formatting with a single argument (`sprintf1`); this coincides with the Go
code for patterns that contain no `%` of their own.  The unbounded
`for` loop stops at the first missing candidate; over the finite filesystem it
runs at most `fs.card` successful iterations, so it is modelled with fuel
`fs.card + 1`. -/

/-- `strings.ReplaceAll` (fuelled by the input length; the pattern replaced in
the source, the marker-name template variable, is never empty). -/
def replaceAllF (pat repl : List Char) : Nat → List Char → List Char
  | 0, l => l
  | _ + 1, [] => []
  | fuel + 1, c :: rest =>
    if pat.isPrefixOf (c :: rest) then
      repl ++ replaceAllF pat repl fuel (List.drop pat.length (c :: rest))
    else c :: replaceAllF pat repl fuel rest

/-- The template variable replaced by the marker name. -/
def markerNameVar : String := "\x7b\x7b.markerName\x7d\x7d"

/-- `strings.ReplaceAll(pattern, "\x7b\x7b.markerName\x7d\x7d", markerName)`. -/
def substMarkerName (pattern markerName : String) : String :=
  String.mk (replaceAllF markerNameVar.toList markerName.toList pattern.toList.length pattern.toList)

/-- An item of the format string built by replacing each maximal `#`-run with a
zero-padded decimal verb whose width is the run length. -/
inductive FmtItem where
  | lit (c : Char)
  | verb (width : Nat)
deriving DecidableEq, Repr

/-- Parse the pattern: maximal runs of `#` become verbs (width = run length),
everything else is literal.  Right fold merging adjacent verbs computes the
same maximal runs as the regex `#+`. -/
def toFormat : List Char → List FmtItem
  | [] => []
  | c :: rest =>
    let f := toFormat rest
    if c = '#' then
      match f with
      | FmtItem.verb w :: f' => FmtItem.verb (w + 1) :: f'
      | _ => FmtItem.verb 1 :: f
    else FmtItem.lit c :: f

/-- `isSequenced` of the Go code: the pattern contained at least one `#` run. -/
def hasVerb (f : List FmtItem) : Bool :=
  f.any fun i => match i with | FmtItem.verb _ => true | FmtItem.lit _ => false

/-- Go `%0<w>d` of a non-negative integer. -/
def padZeros (w n : Nat) : String :=
  let s := Nat.repr n
  if s.toList.length < w then String.mk (List.replicate (w - s.toList.length) '0') ++ s else s

/-- `fmt.Sprintf` with exactly one integer argument: the first verb formats the
argument, any further verb renders Go's missing-argument text. -/
def sprintf1Go : List FmtItem → Nat → Bool → String
  | [], _, _ => ""
  | FmtItem.lit c :: rest, n, used => String.mk [c] ++ sprintf1Go rest n used
  | FmtItem.verb w :: rest, n, used =>
    if used then "%!d(MISSING)" ++ sprintf1Go rest n used
    else padZeros w n ++ sprintf1Go rest n true

/-- `fmt.Sprintf(filePattern, n)` for a parsed pattern. -/
def sprintf1 (f : List FmtItem) (n : Nat) : String :=
  sprintf1Go f n false

/-- `filepath.Join(markerDir, fmt.Sprintf(filePattern, i))`. -/
def seqCandidate (markerDir : String) (f : List FmtItem) (i : Nat) : String :=
  filepathJoin markerDir (sprintf1 f i)

/-- The sequenced search loop: starting at index 1, collect every
consecutively existing candidate, stop at the first missing one. -/
def seqLoop (fs : Finset String) (markerDir : String) (f : List FmtItem) : Nat → Nat → List String
  | _, 0 => []
  | i, fuel + 1 =>
    let c := seqCandidate markerDir f (i + 1)
    if c ∈ fs then c :: seqLoop fs markerDir f (i + 1) fuel else []

/-- The per-pattern body of `MatchFiles`: substitute the marker name, parse the
`#` runs; without a run test the single candidate, with a run iterate. -/
def matchOnePattern (fs : Finset String) (markerDir markerName : String) (pattern : String) : List String :=
  let pat := substMarkerName pattern markerName
  let f := toFormat pat.toList
  if hasVerb f then
    seqLoop fs markerDir f 0 (fs.card + 1)
  else
    let candidateFile := filepathJoin markerDir pat
    if candidateFile ∈ fs then [candidateFile] else []

/-- `sequentialFileMatcher.MatchFiles`: matches of all patterns concatenated
in pattern order. -/
def sequentialMatchFiles (fs : Finset String) (marker : String) (patterns : List String) : List String :=
  let (markerDir, markerName, _) := SplitFilePath marker
  (patterns.map (matchOnePattern fs markerDir markerName)).flatten

/-- The parsed format of one pattern of a marker (statement helper). -/
def seqPatternFormat (marker pattern : String) : List FmtItem :=
  toFormat (substMarkerName pattern (SplitFilePath marker).2.1).toList

/-- The `i`-th candidate path of one pattern of a marker (statement helper). -/
def seqPatternCandidate (marker pattern : String) (i : Nat) : String :=
  seqCandidate (SplitFilePath marker).1 (seqPatternFormat marker pattern) i

/-! ### Result records (internal/core models.go) -/

/-- `core.UploadInfo`. -/
structure UploadInfo where
  Src : String
  Dest : String
  ChecksumType : String
  Checksum : String
  Size : Int
  LastModified : Int
deriving DecidableEq, Repr

/-- `core.StorageResult`.  `UploadResults` is `[]*core.UploadInfo`: `none`
models the nil slice, inner `none` a nil pointer entry. -/
structure StorageResult where
  Error : Option String
  MarkerPath : String
  UploadResults : Option (List (Option UploadInfo))
  Type' : String
  Handler : String
deriving DecidableEq, Repr

/-- `core.ProcessorResult`; the Go `map[string]*StorageResult` is an
association list keyed by storage type. -/
structure ProcessorResult where
  Error : Option String
  Path : String
  TraceId : String
  Result : List (String × StorageResult)
deriving DecidableEq, Repr

/-! ### Processor removal stage (internal/processor processor.go) -/

/-- `processor.prepareRemovalCandidates`: the marker path plus the `Src` of
every non-nil upload result of every errorless backend result, deduplicated
(Go set-typed map) and sorted (`sort.Strings`). -/
def prepareRemovalCandidates (resp : ProcessorResult) : List String :=
  let uniqueCandidates : List String :=
    (resp.Path ::
      (resp.Result.map fun kv =>
        if kv.2.Error.isSome then []
        else (kv.2.UploadResults.getD []).filterMap (fun info => info.map (·.Src))).flatten).dedup
  sortStrings uniqueCandidates

/-- The removal loop of `processor.remove`: for each candidate that still
exists call `os.Remove` (whose outcome is `removeErr`); a failed remove pushes
its error and continues.  Returns the filesystem afterwards, the errors
pushed, and the paths passed to `os.Remove`. -/
def removeLoop (removeErr : String → Option String) :
    Finset String → List String → Finset String × List String × List String
  | fs, [] => (fs, [], [])
  | fs, c :: rest =>
    if c ∈ fs then
      match removeErr c with
      | some e =>
        let r := removeLoop removeErr fs rest
        (r.1, e :: r.2.1, c :: r.2.2)
      | none =>
        let r := removeLoop removeErr (fs.erase c) rest
        (r.1, r.2.1, c :: r.2.2)
    else removeLoop removeErr fs rest

/-- One iteration of the `processor.remove` consumer loop: a result carrying
an error pushes exactly that error and deletes nothing; an errorless result
runs the removal loop over its removal candidates. -/
def removeProcessOne (removeErr : String → Option String) (fs : Finset String)
    (resp : ProcessorResult) : Finset String × List String × List String :=
  match resp.Error with
  | some e => (fs, [e], [])
  | none => removeLoop removeErr fs (prepareRemovalCandidates resp)

/-- `processor.remove` over a whole stream of processor results, threading the
filesystem and concatenating emitted errors and `os.Remove` calls. -/
def removeAll (removeErr : String → Option String) :
    Finset String → List ProcessorResult → Finset String × List String × List String
  | fs, [] => (fs, [], [])
  | fs, r :: rest =>
    let s := removeProcessOne removeErr fs r
    let s' := removeAll removeErr s.1 rest
    (s'.1, s.2.1 ++ s'.2.1, s.2.2 ++ s'.2.2)

/-! ### Marker readiness wait (internal/processor processor.go)

Durations are nanoseconds (`time.Duration`).  `statSeq k` is the outcome of
the `k`-th `os.Stat` of the marker during the wait loop: `none` when the stat
fails (file missing), `some sz` for a file of size `sz`.  The second component
of the results below is the trace of sleeps performed (`core.ApplyDelay`). -/

/-- `time.Millisecond` in nanoseconds. -/
def Millisecond : Nat := 1000000

/-- `processor.DefaultDelayBeforeUpload` (150 ms). -/
def DefaultDelayBeforeUpload : Nat := 150 * Millisecond

/-- `processor.DefaultMarkerFileCheckInterval` (100 ms). -/
def DefaultMarkerFileCheckInterval : Nat := 100 * Millisecond

/-- `processor.DefaultMarkerFileCheckMaxAttempts`. -/
def DefaultMarkerFileCheckMaxAttempts : Nat := 3

/-- `processor.DefaultMarkerFileCheckMinSize`. -/
def DefaultMarkerFileCheckMinSize : Int := 0

/-- `processor.markerCheckConfig`. -/
structure MarkerCheckConfig where
  checkInterval : Nat
  maxAttempts : Nat
  minSize : Int

/-- The retry loop of `waitForMarkerFileToBeReady`: `remaining` is
`maxAttempts - attempts`, `k` the index of the next stat, `last` the last
known file info.  Attempts exhausted returns the last known info as success;
a failed stat is an error; a stat at or above `minSize` is success; otherwise
sleep `checkInterval` and retry. -/
def waitLoop (cfg : MarkerCheckConfig) (statSeq : Nat → Option Int) :
    Nat → Nat → Option Int → Except String (Option Int) × List Nat
  | 0, _, last => (Except.ok last, [])
  | remaining + 1, k, _ =>
    match statSeq k with
    | none => (Except.error "marker file doesn't exist", [])
    | some sz =>
      if cfg.minSize ≤ sz then (Except.ok (some sz), [])
      else
        let r := waitLoop cfg statSeq remaining (k + 1) (some sz)
        (r.1, cfg.checkInterval :: r.2)

/-- The non-immediate path of `waitForMarkerFileToBeReady`: sleep `flushDelay`
when positive, then run the retry loop from attempt 0. -/
def waitBody (flushDelay : Nat) (cfg : MarkerCheckConfig)
    (markerInfo : Option Int) (statSeq : Nat → Option Int) :
    Except String (Option Int) × List Nat :=
  let pre := if 0 < flushDelay then [flushDelay] else []
  let r := waitLoop cfg statSeq cfg.maxAttempts 0 markerInfo
  (r.1, pre ++ r.2)

/-- `processor.waitForMarkerFileToBeReady`.  `markerInfo` is the size from the
already-held stat of the scanner (`marker.Info`, `none` for a nil info). -/
def waitForMarkerFileToBeReady (flushDelay : Nat) (cfg : MarkerCheckConfig)
    (markerInfo : Option Int) (statSeq : Nat → Option Int) :
    Except String (Option Int) × List Nat :=
  match markerInfo with
  | some sz =>
    if cfg.minSize ≤ sz then (Except.ok (some sz), [])
    else waitBody flushDelay cfg markerInfo statSeq
  | none => waitBody flushDelay cfg markerInfo statSeq

/-! ### S3 single-file sync (internal/storage `s3Handler.syncWithBucket`)

The MinIO client and the local filesystem interactions are the inputs:
`fileMD5First` the `fsx.FileMD5(src)` computed at the start, `statObject` the
`StatObject` outcome on the destination, `fput` the `FPutObject` outcome,
`fileMD5Again` the re-computed MD5, `localSize` the `os.Stat(src)` size.  The
boolean in the result records whether `FPutObject` was invoked. -/

/-- `minio.ObjectInfo` / `minio.UploadInfo` (the fields the code reads). -/
structure ObjectInfo where
  Key : String
  ETag : String
  Size : Int
  LastModified : Int
deriving DecidableEq, Repr

/-- The `core.UploadInfo` built by `syncWithBucket` from object metadata. -/
def syncUploadInfo (src : String) (key etag : String) (size lastModified : Int) : UploadInfo :=
  { Src := src, Dest := key, ChecksumType := "md5", Checksum := etag,
    Size := size, LastModified := lastModified }

/-- The upload path of `syncWithBucket`, entered when the destination object
does not already carry the local checksum. -/
def syncAfterStat (src : String) (localChecksum : String)
    (fput : Except String ObjectInfo) (fileMD5Again : Except String String)
    (localSize : Except String Int) : Except String UploadInfo × Bool :=
  match fput with
  | Except.error e => (Except.error ("failed to upload file to S3: " ++ e), true)
  | Except.ok info =>
    if info.ETag ≠ localChecksum then
      match fileMD5Again with
      | Except.error e => (Except.error ("failed to calculate local checksum: " ++ e), true)
      | Except.ok latestChecksum =>
        if info.ETag ≠ latestChecksum then
          match localSize with
          | Except.error e => (Except.error ("failed to get local file info: " ++ e), true)
          | Except.ok _ =>
            (Except.error ("checksum mismatch after upload: expected " ++ latestChecksum ++
              ", got " ++ info.ETag), true)
        else (Except.ok (syncUploadInfo src info.Key info.ETag info.Size info.LastModified), true)
    else (Except.ok (syncUploadInfo src info.Key info.ETag info.Size info.LastModified), true)

/-- `s3Handler.syncWithBucket`: skip the upload when the destination object
exists and its entity tag equals the local MD5, otherwise upload and verify. -/
def syncWithBucket (src : String) (fileMD5First : Except String String)
    (statObject : Except String ObjectInfo) (fput : Except String ObjectInfo)
    (fileMD5Again : Except String String) (localSize : Except String Int) :
    Except String UploadInfo × Bool :=
  match fileMD5First with
  | Except.error e => (Except.error ("failed to calculate local checksum: " ++ e), false)
  | Except.ok localChecksum =>
    match statObject with
    | Except.ok attr =>
      if localChecksum = attr.ETag then
        (Except.ok (syncUploadInfo src attr.Key attr.ETag attr.Size attr.LastModified), false)
      else syncAfterStat src localChecksum fput fileMD5Again localSize
    | Except.error _ => syncAfterStat src localChecksum fput fileMD5Again localSize

/-! ### Bounded walker (pkg/fsx `Walker`)

`dirStream` is the sequence of names `Readdirnames` yields for one directory
in the order the operating system returns them.  `Walker.readDirEntries`
takes the next batch of at most `batchSize` names and sorts that batch
(`slices.Sort`); `Walker.walk` loops over batches, invoking the callback on
every name of a batch before reading the next. -/

/-- The successive `Readdirnames(batchSize)` batches of a directory stream
(fuelled by the stream length; `Readdirnames(n)` with `n <= 0` reads the whole
directory at once). -/
def readBatchesF (batchSize : Nat) : Nat → List String → List (List String)
  | _, [] => []
  | 0, l => [l]
  | fuel + 1, l => l.take batchSize :: readBatchesF batchSize fuel (l.drop batchSize)

/-- The batches `Walker.readDirEntries` returns for one directory, each batch
sorted. -/
def readDirBatches (batchSize : Nat) (dirStream : List String) : List (List String) :=
  if batchSize = 0 then (if dirStream = [] then [] else [sortStrings dirStream])
  else (readBatchesF batchSize dirStream.length dirStream).map sortStrings

/-- The order in which `Walker.walk` hands a directory's entries to the
callback: the concatenation of the per-batch sorted listings. -/
def dirVisitOrder (batchSize : Nat) (dirStream : List String) : List String :=
  (readDirBatches batchSize dirStream).flatten

/-! ### Scanner (internal/storage handler.go `scanner`) -/

/-- Modelled from the spec: `config.IsValidExtension` is called by
`newScanner` but its definition is not among the provided sources (only its
callers and the analogous `core.IsFileExtension` are).  Per the spec,
construction rejects any marker pattern containing wildcard characters and
accepts only extensions beginning with a dot, the empty string included. -/
def IsValidExtension (pattern : String) : Bool :=
  !(pattern.toList.any fun c => c == '*' || c == '?') &&
    (pattern == "" || pattern.toList.head? == some '.')

/-- The `scanner` record of internal/storage handler.go. -/
structure Scanner where
  id : String
  directory : String
  pattern : String
  batchSize : Nat
deriving DecidableEq, Repr

/-- `newScanner`: reject invalid marker patterns, otherwise build the scanner. -/
def newScanner (id rootDir pattern : String) (batchSize : Nat) : Except String Scanner :=
  if !IsValidExtension pattern then
    Except.error ("invalid file extension " ++ pattern)
  else Except.ok { id := id, directory := rootDir, pattern := pattern, batchSize := batchSize }

/-- The emission filter of `scanner.Scan`'s walk callback: a hit needs a
regular file whose final extension equals the configured pattern exactly. -/
def scanEmits (s : Scanner) (isRegular : Bool) (path : String) : Bool :=
  isRegular && (filepathExt path == s.pattern)

/-- Whether the final slash-separated element of the path contains a dot
(statement helper for the empty-pattern characterization). -/
def hasDotInLastElem (p : String) : Bool :=
  (lastElemRev p.toList.reverse []).any (fun c => c == '.')

/-! ### Per-backend handler (internal/storage handler.go `handler`)

`onDisk` is the `fsx.PathExists` verdict per candidate, `syncFile src dest`
the backend's single-file sync outcome, `preSyncErr` the pre-sync outcome.
Goroutine scheduling only permutes the error order; the models below use
candidate order, and the theorems proved about them do not depend on it. -/

/-- `core.ComputeDestinationBucketPath` (internal/core). -/
def ComputeDestinationBucketPath (rootDir srcFile pathPfx : String) : String :=
  let (srcDir, fileName, ext) := SplitFilePath srcFile
  let relSubDirs := trimPfx (pathClean srcDir) (pathClean rootDir)
  let destDir := filepathJoin pathPfx relSubDirs
  pathClean (filepathJoin destDir (fileName ++ ext))

/-- The error `handler.runParallel` funnels for a missing candidate. -/
def missingCandidateError (c stype : String) : String :=
  "candidate file is missing, failed to upload file " ++ c ++ " in " ++ stype

/-- The error `handler.runParallel` funnels for a failed sync. -/
def uploadFailedError (c stype e : String) : String :=
  "failed to upload file " ++ c ++ " in " ++ stype ++ ": " ++ e

/-- All error values sent into `errChan` during one `runParallel` call: a
missing candidate contributes one send from the dispatch loop, and a failed
sync of the same candidate contributes another from its goroutine. -/
def runParallelErrors (onDisk : String → Bool)
    (syncFile : String → String → Except String UploadInfo)
    (stype rootDir pathPfx : String) (candidates : List String) : List String :=
  (candidates.map fun c =>
    (if onDisk c then [] else [missingCandidateError c stype]) ++
    (match syncFile c (ComputeDestinationBucketPath rootDir c pathPfx) with
     | Except.error e => [uploadFailedError c stype e]
     | Except.ok _ => [])).flatten

/-- The capacity `make(chan error, len(candidates))` gives `errChan`. -/
def errChanCapacity (candidates : List String) : Nat := candidates.length

/-- `handler.runParallel`: pre-sync first; then, after the barrier, a recorded
error discards all accumulated upload results (`return nil, <-errChan`),
otherwise the successful outcomes are returned. -/
def runParallelModel (preSyncErr : Option String) (onDisk : String → Bool)
    (syncFile : String → String → Except String UploadInfo)
    (stype rootDir pathPfx : String) (candidates : List String) :
    Option (List UploadInfo) × Option String :=
  match preSyncErr with
  | some e => (none, some ("pre-sync validation failed: " ++ e))
  | none =>
    let errs := runParallelErrors onDisk syncFile stype rootDir pathPfx candidates
    if errs.isEmpty then
      (some (candidates.filterMap fun c =>
        (syncFile c (ComputeDestinationBucketPath rootDir c pathPfx)).toOption), none)
    else (none, errs.head?)

/-- `handler.Put`: wrap the `runParallel` outcome into a `core.StorageResult`. -/
def handlerPut (preSyncErr : Option String) (onDisk : String → Bool)
    (syncFile : String → String → Except String UploadInfo)
    (hId stype rootDir pathPfx markerPath : String) (candidates : List String) : StorageResult :=
  let r := runParallelModel preSyncErr onDisk syncFile stype rootDir pathPfx candidates
  { Error := r.2, MarkerPath := markerPath,
    UploadResults := r.1.map (fun l => l.map some),
    Type' := stype, Handler := hId }

/-! ### Processor upload stage (internal/processor `processor.upload`) -/

/-- `processor.prepareUploadCandidates` over the outcomes of the configured
matchers (an unknown matcher type or a matcher failure is an `error`
outcome): concatenate the matches, failing on the first error. -/
def prepareUploadCandidatesGo :
    List (Except String (List String)) → List String → Except String (List String)
  | [], acc => Except.ok acc
  | Except.error e :: _, _ => Except.error ("failed to match files for marker: " ++ e)
  | Except.ok ms :: rest, acc => prepareUploadCandidatesGo rest (acc ++ ms)

/-- `processor.prepareUploadCandidates`. -/
def prepareUploadCandidates (matcherOutcomes : List (Except String (List String))) :
    Except String (List String) :=
  prepareUploadCandidatesGo matcherOutcomes []

/-- Go map insertion `pr.Result[resp.Type] = &resp` on the association list. -/
def mapInsert (m : List (String × StorageResult)) (k : String) (v : StorageResult) :
    List (String × StorageResult) :=
  if m.any (fun kv => kv.1 == k) then
    m.map fun kv => if kv.1 == k then (k, v) else kv
  else m ++ [(k, v)]

/-- The aggregation loop of `processor.upload`: store every backend result
under its storage type, record the first error formatted with the marker
path. -/
def aggregateStorageResults (markerPath traceId : String)
    (resps : List StorageResult) : ProcessorResult :=
  resps.foldl
    (fun pr resp =>
      { pr with
        Error := match pr.Error, resp.Error with
          | none, some e => some (e ++ ": " ++ markerPath)
          | e, _ => e,
        Result := mapInsert pr.Result resp.Type' resp })
    { Error := none, Path := markerPath, TraceId := traceId, Result := [] }

/-- One iteration of the `processor.upload` producer loop for one marker:
skip silently when the marker is gone, when the readiness wait fails, or when
candidate preparation fails; otherwise fan out to the storages and emit the
aggregated result.  The first component is the emitted `ProcessorResult`
(`none` = nothing emitted), the second whether any storage `Put` was
launched. -/
def uploadStep (markerExists : Bool) (waitResult : Except String (Option Int))
    (matcherOutcomes : List (Except String (List String)))
    (storageResponses : List StorageResult)
    (markerPath traceId : String) : Option ProcessorResult × Bool :=
  if !markerExists then (none, false)
  else
    match waitResult with
    | Except.error _ => (none, false)
    | Except.ok _ =>
      match prepareUploadCandidates matcherOutcomes with
      | Except.error _ => (none, false)
      | Except.ok _ =>
        (some (aggregateStorageResults markerPath traceId storageResponses), true)

/-! ### Concrete sample data used by witnesses -/

/-- A successful upload outcome of backend `s3` for source `b.gz`. -/
def sampleUploadA : UploadInfo :=
  { Src := "b.gz", Dest := "pfx/b.gz", ChecksumType := "md5", Checksum := "x",
    Size := 1, LastModified := 0 }

/-- A successful upload outcome of backend `s3` for source `a.gz`. -/
def sampleUploadB : UploadInfo :=
  { Src := "a.gz", Dest := "pfx/a.gz", ChecksumType := "md5", Checksum := "y",
    Size := 2, LastModified := 0 }

/-- An errorless backend result with two outcomes and one nil entry. -/
def sampleOkResult : StorageResult :=
  { Error := none, MarkerPath := "m.mf",
    UploadResults := some [some sampleUploadA, none, some sampleUploadB],
    Type' := "s3", Handler := "h1" }

/-- The upload outcome of the failed backend. -/
def sampleUploadC : UploadInfo :=
  { Src := "z.gz", Dest := "pfx/z.gz", ChecksumType := "md5", Checksum := "q",
    Size := 1, LastModified := 0 }

/-- A failed backend result whose outcome must not be removed. -/
def sampleErrResult : StorageResult :=
  { Error := some "boom", MarkerPath := "m.mf",
    UploadResults := some [some sampleUploadC],
    Type' := "local", Handler := "h2" }

/-- A marker result without aggregated error (one backend failed, one not). -/
def sampleProcessorResult : ProcessorResult :=
  { Error := none, Path := "m.mf", TraceId := "t",
    Result := [("s3", sampleOkResult), ("local", sampleErrResult)] }

/-- A marker result carrying an aggregated error. -/
def sampleErrProcessorResult : ProcessorResult :=
  { Error := some "sync failed", Path := "m.mf", TraceId := "t",
    Result := [("local", sampleErrResult)] }

/-! ## Theorems -/

/-! ### Properties of the Go string order -/

theorem charListLe_total : ∀ a b, charListLe a b = true ∨ charListLe b a = true := by
  intro a
  induction a with
  | nil => intro b; left; rfl
  | cons x xs ih =>
    intro b
    cases b with
    | nil => right; rfl
    | cons y ys =>
      simp only [charListLe]
      rcases Nat.lt_trichotomy x.val.toNat y.val.toNat with h | h | h
      · left; simp [h]
      · have h1 : ¬ x.val.toNat < y.val.toNat := by omega
        have h2 : ¬ y.val.toNat < x.val.toNat := by omega
        rcases ih ys with hc | hc <;> [left; right] <;> simp [h1, h2, hc]
      · right; simp [h]

theorem charListLe_trans :
    ∀ a b c, charListLe a b = true → charListLe b c = true → charListLe a c = true := by
  intro a
  induction a with
  | nil => intro b c _ _; rfl
  | cons x xs ih =>
    intro b c hab hbc
    cases b with
    | nil => simp [charListLe] at hab
    | cons y ys =>
      cases c with
      | nil => simp [charListLe] at hbc
      | cons z zs =>
        simp only [charListLe] at hab hbc ⊢
        rcases Nat.lt_trichotomy x.val.toNat y.val.toNat with hxy | hxy | hxy
        · rcases Nat.lt_trichotomy y.val.toNat z.val.toNat with hyz | hyz | hyz
          · simp [show x.val.toNat < z.val.toNat by omega]
          · simp [show x.val.toNat < z.val.toNat by omega]
          · simp [show ¬ y.val.toNat < z.val.toNat by omega, hyz] at hbc
        · rcases Nat.lt_trichotomy y.val.toNat z.val.toNat with hyz | hyz | hyz
          · simp [show x.val.toNat < z.val.toNat by omega]
          · simp [show ¬ x.val.toNat < y.val.toNat by omega,
                  show ¬ y.val.toNat < x.val.toNat by omega] at hab
            simp [show ¬ y.val.toNat < z.val.toNat by omega,
                  show ¬ z.val.toNat < y.val.toNat by omega] at hbc
            simp [show ¬ x.val.toNat < z.val.toNat by omega,
                  show ¬ z.val.toNat < x.val.toNat by omega]
            exact ih ys zs hab hbc
          · simp [show ¬ y.val.toNat < z.val.toNat by omega, hyz] at hbc
        · simp [show ¬ x.val.toNat < y.val.toNat by omega, hxy] at hab

theorem goStringLe_total (a b : String) : goStringLe a b = true ∨ goStringLe b a = true :=
  charListLe_total a.toList b.toList

theorem goStringLe_trans (a b c : String) :
    goStringLe a b = true → goStringLe b c = true → goStringLe a c = true :=
  charListLe_trans a.toList b.toList c.toList

theorem sortStrings_sorted (l : List String) :
    List.Sorted (fun a b => goStringLe a b = true) (sortStrings l) :=
  @List.sorted_insertionSort String (fun a b => goStringLe a b = true) _
    ⟨goStringLe_total⟩ ⟨fun a b c => goStringLe_trans a b c⟩ l

theorem sortStrings_perm (l : List String) : (sortStrings l).Perm l :=
  List.perm_insertionSort _ l

theorem mem_sortStrings {p : String} {l : List String} : p ∈ sortStrings l ↔ p ∈ l :=
  (sortStrings_perm l).mem_iff

/-! ### C1: the sequential matcher's stopping rule -/

theorem seqLoop_eq (fs : Finset String) (dir : String) (f : List FmtItem) :
    ∀ (g i fuel : Nat), g < fuel →
      (∀ t, t < g → seqCandidate dir f (i + t + 1) ∈ fs) →
      seqCandidate dir f (i + g + 1) ∉ fs →
      seqLoop fs dir f i fuel = (List.range g).map (fun t => seqCandidate dir f (i + t + 1)) := by
  intro g
  induction g with
  | zero =>
    intro i fuel hfuel _ hgap
    cases fuel with
    | zero => omega
    | succ fuel' =>
      simp only [seqLoop]
      rw [if_neg]
      · simp
      · simpa using hgap
  | succ g ih =>
    intro i fuel hfuel hcons hgap
    cases fuel with
    | zero => omega
    | succ fuel' =>
      simp only [seqLoop]
      rw [if_pos (hcons 0 (by omega))]
      rw [ih (i + 1) fuel' (by omega)
          (fun t ht => by
            have := hcons (t + 1) (by omega)
            simpa [show i + (t + 1) + 1 = i + 1 + t + 1 by omega] using this)
          (by simpa [show i + (g + 1) + 1 = i + 1 + g + 1 by omega] using hgap)]
      rw [List.range_succ_eq_map, List.map_cons, List.map_map]
      refine congrArg₂ List.cons rfl ?_
      apply List.map_congr_left
      intro t _
      simp only [Function.comp]
      congr 1
      omega

/-- C1: for a sequential-matcher pattern with a `#` run, `MatchFiles` formats
a counter starting at 1 zero-padded to the run length, collects every
consecutively existing candidate and stops at the first index whose file does
not exist; the returned list is exactly the candidates `1..g` where `g + 1`
is the first gap, so no file beyond the first gap is ever included. -/
theorem sequentialMatcher_stopping_rule
    (fs : Finset String) (marker pattern : String) (g : Nat)
    (hnopct : '%' ∉ (substMarkerName pattern (SplitFilePath marker).2.1).toList)
    (hseq : hasVerb (seqPatternFormat marker pattern) = true)
    (hcons : ∀ t, t < g → seqPatternCandidate marker pattern (t + 1) ∈ fs)
    (hgap : seqPatternCandidate marker pattern (g + 1) ∉ fs)
    (hg : g ≤ fs.card) :
    sequentialMatchFiles fs marker [pattern]
        = (List.range g).map (fun t => seqPatternCandidate marker pattern (t + 1)) ∧
      ∀ p ∈ sequentialMatchFiles fs marker [pattern],
        ∃ t, t < g ∧ p = seqPatternCandidate marker pattern (t + 1) := by
  have hmain : sequentialMatchFiles fs marker [pattern]
      = (List.range g).map (fun t => seqPatternCandidate marker pattern (t + 1)) := by
    simp only [sequentialMatchFiles, List.map_cons, List.map_nil, List.flatten_cons,
      List.flatten_nil, List.append_nil]
    simp only [matchOnePattern]
    simp only [seqPatternFormat] at hseq
    rw [if_pos hseq]
    have := seqLoop_eq fs (SplitFilePath marker).1 (seqPatternFormat marker pattern) g 0
      (fs.card + 1) (by omega)
      (fun t ht => by simpa [Nat.zero_add] using hcons t ht)
      (by simpa [Nat.zero_add] using hgap)
    simpa [seqPatternFormat, seqPatternCandidate, Nat.zero_add] using this
  refine ⟨hmain, ?_⟩
  intro p hp
  rw [hmain] at hp
  simp only [List.mem_map, List.mem_range] at hp
  obtain ⟨t, ht, rfl⟩ := hp
  exact ⟨t, ht, rfl⟩

/-- Witness for C1 at the spec's S5 scenario: files `_01`, `_02` and `_099`
exist; the matcher returns exactly `_01` and `_02`, and `_099` — present on
disk but beyond the first gap at index 3 — is not returned. -/
theorem sequentialMatcher_stopping_rule_witness :
    sequentialMatchFiles
        (["sidecar/marker_01.gz", "sidecar/marker_02.gz", "sidecar/marker_099.gz"] :
          List String).toFinset
        "sidecar/marker.mf" ["\x7b\x7b.markerName\x7d\x7d_##.gz"]
        = ["sidecar/marker_01.gz", "sidecar/marker_02.gz"] ∧
      "sidecar/marker_099.gz" ∈
        (["sidecar/marker_01.gz", "sidecar/marker_02.gz", "sidecar/marker_099.gz"] :
          List String).toFinset ∧
      "sidecar/marker_099.gz" ∉
        sequentialMatchFiles
          (["sidecar/marker_01.gz", "sidecar/marker_02.gz", "sidecar/marker_099.gz"] :
            List String).toFinset
          "sidecar/marker.mf" ["\x7b\x7b.markerName\x7d\x7d_##.gz"] := by
  have h := sequentialMatcher_stopping_rule
    (["sidecar/marker_01.gz", "sidecar/marker_02.gz", "sidecar/marker_099.gz"] :
      List String).toFinset
    "sidecar/marker.mf" "\x7b\x7b.markerName\x7d\x7d_##.gz" 2
    (by decide) (by decide)
    (by intro t ht; interval_cases t <;> decide)
    (by decide) (by decide)
  refine ⟨?_, by decide, ?_⟩
  · rw [h.1]; decide
  · rw [h.1]; decide

/-! ### C2: the removal candidate set -/

/-- C2: for a marker result, the removal candidates computed by
`prepareRemovalCandidates` are exactly the marker path together with the
source paths of the non-nil upload results of every errorless backend result;
the list has no duplicates and is sorted in Go's lexical string order. -/
theorem removal_candidates_correct (resp : ProcessorResult) (h : resp.Error = none) :
    (∀ p, p ∈ prepareRemovalCandidates resp ↔
      (p = resp.Path ∨ ∃ kv ∈ resp.Result, kv.2.Error = none ∧
        ∃ u, some u ∈ kv.2.UploadResults.getD [] ∧ u.Src = p)) ∧
    (prepareRemovalCandidates resp).Nodup ∧
    List.Sorted (fun a b => goStringLe a b = true) (prepareRemovalCandidates resp) := by
  refine ⟨?_, ?_, sortStrings_sorted _⟩
  · intro p
    simp only [prepareRemovalCandidates, mem_sortStrings, List.mem_dedup, List.mem_cons,
      List.mem_flatten, List.mem_map]
    constructor
    · rintro (rfl | ⟨l, ⟨kv, hkv, rfl⟩, hpl⟩)
      · left; rfl
      · right
        by_cases he : kv.2.Error.isSome
        · simp [he] at hpl
        · rw [if_neg he] at hpl
          rw [List.mem_filterMap] at hpl
          obtain ⟨oi, hoi, hmap⟩ := hpl
          cases oi with
          | none => simp at hmap
          | some u =>
            simp at hmap
            exact ⟨kv, hkv, Option.not_isSome_iff_eq_none.mp he, u, hoi, hmap⟩
    · rintro (rfl | ⟨kv, hkv, herr, u, hu, rfl⟩)
      · left; rfl
      · right
        refine ⟨_, ⟨kv, hkv, rfl⟩, ?_⟩
        rw [if_neg (by simp [herr])]
        rw [List.mem_filterMap]
        exact ⟨some u, hu, rfl⟩
  · exact (sortStrings_perm _).nodup_iff.mpr (List.nodup_dedup _)

/-- Witness for C2 at a marker result with one errorless backend (sources
`b.gz`, `a.gz` plus a nil entry) and one failed backend (source `z.gz`): the
removal list is sorted, duplicate-free, contains the marker and the errorless
sources, and omits the failed backend's source. -/
theorem removal_candidates_correct_witness :
    sampleProcessorResult.Error = none ∧
    prepareRemovalCandidates sampleProcessorResult = ["a.gz", "b.gz", "m.mf"] ∧
    ("z.gz" ∉ prepareRemovalCandidates sampleProcessorResult) ∧
    List.Sorted (fun a b => goStringLe a b = true)
      (prepareRemovalCandidates sampleProcessorResult) :=
  ⟨rfl, by decide, by decide,
    (removal_candidates_correct sampleProcessorResult rfl).2.2⟩

/-! ### C3: an errored marker result is reported, nothing is deleted -/

theorem removeAll_append (removeErr : String → Option String) (fs : Finset String)
    (l₁ l₂ : List ProcessorResult) :
    removeAll removeErr fs (l₁ ++ l₂) =
      ((removeAll removeErr (removeAll removeErr fs l₁).1 l₂).1,
       (removeAll removeErr fs l₁).2.1 ++
         (removeAll removeErr (removeAll removeErr fs l₁).1 l₂).2.1,
       (removeAll removeErr fs l₁).2.2 ++
         (removeAll removeErr (removeAll removeErr fs l₁).1 l₂).2.2) := by
  induction l₁ generalizing fs with
  | nil => simp [removeAll]
  | cons r rest ih => simp [removeAll, ih, List.append_assoc]

/-- C3: a marker result carrying an error makes the remove stage push exactly
that error and delete nothing: no `os.Remove` call happens for it and the
filesystem is unchanged, both in isolation and at any position within the
stream of marker results. -/
theorem remove_on_error_reports_and_keeps_files
    (removeErr : String → Option String) (fs : Finset String)
    (resp : ProcessorResult) (e : String) (rs₁ rs₂ : List ProcessorResult)
    (h : resp.Error = some e) :
    removeProcessOne removeErr fs resp = (fs, [e], []) ∧
    removeAll removeErr fs (rs₁ ++ resp :: rs₂) =
      ((removeAll removeErr (removeAll removeErr fs rs₁).1 rs₂).1,
       (removeAll removeErr fs rs₁).2.1 ++
         e :: (removeAll removeErr (removeAll removeErr fs rs₁).1 rs₂).2.1,
       (removeAll removeErr fs rs₁).2.2 ++
         (removeAll removeErr (removeAll removeErr fs rs₁).1 rs₂).2.2) := by
  have h1 : removeProcessOne removeErr fs resp = (fs, [e], []) := by
    simp [removeProcessOne, h]
  refine ⟨h1, ?_⟩
  rw [removeAll_append]
  have h2 : ∀ fs' : Finset String,
      removeAll removeErr fs' (resp :: rs₂) =
        ((removeAll removeErr fs' rs₂).1,
         e :: (removeAll removeErr fs' rs₂).2.1,
         (removeAll removeErr fs' rs₂).2.2) := by
    intro fs'
    simp [removeAll, removeProcessOne, h]
  rw [h2]

/-- Witness for C3: an errored marker result in the middle of a stream leaves
the filesystem untouched, emits exactly its error, and triggers no remove
call for itself (the neighbouring errorless result still removes its own
files). -/
theorem remove_on_error_reports_and_keeps_files_witness :
    sampleErrProcessorResult.Error = some "sync failed" ∧
    removeProcessOne (fun _ => none) (["m.mf", "a.gz"] : List String).toFinset
        sampleErrProcessorResult
      = ((["m.mf", "a.gz"] : List String).toFinset, ["sync failed"], []) :=
  ⟨rfl,
    (remove_on_error_reports_and_keeps_files (fun _ => none)
      (["m.mf", "a.gz"] : List String).toFinset
      sampleErrProcessorResult "sync failed" [] [] rfl).1⟩

/-! ### C4: the marker readiness wait -/

theorem waitLoop_success (cfg : MarkerCheckConfig) (statSeq : Nat → Option Int) :
    ∀ (j remaining k : Nat) (last : Option Int) (s : Int),
      j < remaining →
      (∀ t, t < j → ∃ s', statSeq (k + t) = some s' ∧ s' < cfg.minSize) →
      statSeq (k + j) = some s → cfg.minSize ≤ s →
      waitLoop cfg statSeq remaining k last
        = (Except.ok (some s), List.replicate j cfg.checkInterval) := by
  intro j
  induction j with
  | zero =>
    intro remaining k last s hrem _ hstat hge
    cases remaining with
    | zero => omega
    | succ r =>
      have hstat' : statSeq k = some s := by simpa using hstat
      simp only [waitLoop, hstat']
      simp [hge]
  | succ j ih =>
    intro remaining k last s hrem hsmall hstat hge
    cases remaining with
    | zero => omega
    | succ r =>
      obtain ⟨s0, h0, h0lt⟩ := hsmall 0 (by omega)
      have h0' : statSeq k = some s0 := by simpa using h0
      have hnle : ¬ cfg.minSize ≤ s0 := not_le.mpr h0lt
      simp only [waitLoop, h0']
      rw [if_neg hnle]
      rw [ih r (k + 1) (some s0) s (by omega)
          (fun t ht => by
            simpa [show k + 1 + t = k + (t + 1) by omega] using hsmall (t + 1) (by omega))
          (by simpa [show k + 1 + j = k + (j + 1) by omega] using hstat) hge]
      simp [List.replicate_succ]

theorem waitLoop_missing (cfg : MarkerCheckConfig) (statSeq : Nat → Option Int) :
    ∀ (j remaining k : Nat) (last : Option Int),
      j < remaining →
      (∀ t, t < j → ∃ s', statSeq (k + t) = some s' ∧ s' < cfg.minSize) →
      statSeq (k + j) = none →
      waitLoop cfg statSeq remaining k last
        = (Except.error "marker file doesn't exist", List.replicate j cfg.checkInterval) := by
  intro j
  induction j with
  | zero =>
    intro remaining k last hrem _ hstat
    cases remaining with
    | zero => omega
    | succ r =>
      have hstat' : statSeq k = none := by simpa using hstat
      simp [waitLoop, hstat']
  | succ j ih =>
    intro remaining k last hrem hsmall hstat
    cases remaining with
    | zero => omega
    | succ r =>
      obtain ⟨s0, h0, h0lt⟩ := hsmall 0 (by omega)
      have h0' : statSeq k = some s0 := by simpa using h0
      have hnle : ¬ cfg.minSize ≤ s0 := not_le.mpr h0lt
      simp only [waitLoop, h0']
      rw [if_neg hnle]
      rw [ih r (k + 1) (some s0) (by omega)
          (fun t ht => by
            simpa [show k + 1 + t = k + (t + 1) by omega] using hsmall (t + 1) (by omega))
          (by simpa [show k + 1 + j = k + (j + 1) by omega] using hstat)]
      simp [List.replicate_succ]

theorem waitLoop_exhaust (cfg : MarkerCheckConfig) (statSeq : Nat → Option Int)
    (f : Nat → Int) :
    ∀ (remaining k : Nat) (last : Option Int),
      (∀ t, t < remaining → statSeq (k + t) = some (f (k + t)) ∧ f (k + t) < cfg.minSize) →
      waitLoop cfg statSeq remaining k last
        = (Except.ok (if remaining = 0 then last else some (f (k + remaining - 1))),
           List.replicate remaining cfg.checkInterval) := by
  intro remaining
  induction remaining with
  | zero => intro k last _; simp [waitLoop]
  | succ r ih =>
    intro k last h
    obtain ⟨h0, h0lt⟩ := h 0 (by omega)
    have h0' : statSeq k = some (f k) := by simpa using h0
    have hnle : ¬ cfg.minSize ≤ f k := not_le.mpr (by simpa using h0lt)
    simp only [waitLoop, h0']
    rw [if_neg hnle]
    rw [ih (k + 1) (some (f k))
        (fun t ht => by
          simpa [show k + 1 + t = k + (t + 1) by omega] using h (t + 1) (by omega))]
    have hval : (if r = 0 then some (f k) else some (f (k + 1 + r - 1)))
        = some (f (k + (r + 1) - 1)) := by
      rcases r with _ | r'
      · simp
      · rw [if_neg (by omega)]
        congr 2
        omega
    rw [hval]
    simp [List.replicate_succ]

/-- C4: `waitForMarkerFileToBeReady` returns at once when the held stat is at
least `minSize`; otherwise it sleeps `flushDelay` once, stats up to
`maxAttempts` times, succeeds at the first stat at or above `minSize`, fails
when a stat reports the file missing, sleeps `checkInterval` after each
unsuccessful stat, and after `maxAttempts` undersized stats still succeeds
with the last stat's info; the defaults are 150 ms, 100 ms, 3 attempts,
minimum size 0. -/
theorem waitForMarker_spec :
    (DefaultDelayBeforeUpload = 150 * Millisecond ∧
     DefaultMarkerFileCheckInterval = 100 * Millisecond ∧
     DefaultMarkerFileCheckMaxAttempts = 3 ∧
     DefaultMarkerFileCheckMinSize = 0) ∧
    (∀ (flushDelay : Nat) (cfg : MarkerCheckConfig) (sz : Int) (statSeq : Nat → Option Int),
      cfg.minSize ≤ sz →
      waitForMarkerFileToBeReady flushDelay cfg (some sz) statSeq = (Except.ok (some sz), [])) ∧
    (∀ (flushDelay : Nat) (cfg : MarkerCheckConfig) (info0 : Option Int)
        (statSeq : Nat → Option Int) (j : Nat) (s : Int),
      (∀ sz, info0 = some sz → sz < cfg.minSize) →
      j < cfg.maxAttempts →
      (∀ t, t < j → ∃ s', statSeq t = some s' ∧ s' < cfg.minSize) →
      statSeq j = some s → cfg.minSize ≤ s →
      waitForMarkerFileToBeReady flushDelay cfg info0 statSeq =
        (Except.ok (some s),
         (if 0 < flushDelay then [flushDelay] else []) ++ List.replicate j cfg.checkInterval)) ∧
    (∀ (flushDelay : Nat) (cfg : MarkerCheckConfig) (info0 : Option Int)
        (statSeq : Nat → Option Int) (j : Nat),
      (∀ sz, info0 = some sz → sz < cfg.minSize) →
      j < cfg.maxAttempts →
      (∀ t, t < j → ∃ s', statSeq t = some s' ∧ s' < cfg.minSize) →
      statSeq j = none →
      waitForMarkerFileToBeReady flushDelay cfg info0 statSeq =
        (Except.error "marker file doesn't exist",
         (if 0 < flushDelay then [flushDelay] else []) ++ List.replicate j cfg.checkInterval)) ∧
    (∀ (flushDelay : Nat) (cfg : MarkerCheckConfig) (info0 : Option Int)
        (statSeq : Nat → Option Int) (f : Nat → Int),
      (∀ sz, info0 = some sz → sz < cfg.minSize) →
      0 < cfg.maxAttempts →
      (∀ t, t < cfg.maxAttempts → statSeq t = some (f t) ∧ f t < cfg.minSize) →
      waitForMarkerFileToBeReady flushDelay cfg info0 statSeq =
        (Except.ok (some (f (cfg.maxAttempts - 1))),
         (if 0 < flushDelay then [flushDelay] else []) ++
           List.replicate cfg.maxAttempts cfg.checkInterval)) := by
  refine ⟨⟨rfl, rfl, rfl, rfl⟩, ?_, ?_, ?_, ?_⟩
  · intro flushDelay cfg sz statSeq hge
    simp [waitForMarkerFileToBeReady, hge]
  · intro flushDelay cfg info0 statSeq j s hsmall0 hj hsmall hstat hge
    have hbody : waitBody flushDelay cfg info0 statSeq =
        (Except.ok (some s),
         (if 0 < flushDelay then [flushDelay] else []) ++ List.replicate j cfg.checkInterval) := by
      rw [waitBody,
        waitLoop_success cfg statSeq j cfg.maxAttempts 0 info0 s hj
          (fun t ht => by simpa using hsmall t ht) (by simpa using hstat) hge]
    cases info0 with
    | none => rw [waitForMarkerFileToBeReady, hbody]
    | some sz =>
      rw [waitForMarkerFileToBeReady, if_neg (by simpa using (hsmall0 sz rfl).not_le), hbody]
  · intro flushDelay cfg info0 statSeq j hsmall0 hj hsmall hstat
    have hbody : waitBody flushDelay cfg info0 statSeq =
        (Except.error "marker file doesn't exist",
         (if 0 < flushDelay then [flushDelay] else []) ++ List.replicate j cfg.checkInterval) := by
      rw [waitBody,
        waitLoop_missing cfg statSeq j cfg.maxAttempts 0 info0 hj
          (fun t ht => by simpa using hsmall t ht) (by simpa using hstat)]
    cases info0 with
    | none => rw [waitForMarkerFileToBeReady, hbody]
    | some sz =>
      rw [waitForMarkerFileToBeReady, if_neg (by simpa using (hsmall0 sz rfl).not_le), hbody]
  · intro flushDelay cfg info0 statSeq f hsmall0 hmax hsmall
    have hbody : waitBody flushDelay cfg info0 statSeq =
        (Except.ok (some (f (cfg.maxAttempts - 1))),
         (if 0 < flushDelay then [flushDelay] else []) ++
           List.replicate cfg.maxAttempts cfg.checkInterval) := by
      rw [waitBody,
        waitLoop_exhaust cfg statSeq f cfg.maxAttempts 0 info0
          (fun t ht => by simpa using hsmall t ht)]
      rw [if_neg (by omega)]
      simp
    cases info0 with
    | none => rw [waitForMarkerFileToBeReady, hbody]
    | some sz =>
      rw [waitForMarkerFileToBeReady, if_neg (by simpa using (hsmall0 sz rfl).not_le), hbody]

/-- Witness for C4, exercising the success-during-retry clause: held stat 3,
minimum size 10, flush delay 5 ns, check interval 7 ns; the first stat shows
4, the second 12, so the wait succeeds with info 12 after sleeping the flush
delay and one check interval. -/
theorem waitForMarker_spec_witness :
    waitForMarkerFileToBeReady 5
        { checkInterval := 7, maxAttempts := 3, minSize := 10 }
        (some 3)
        (fun t => if t = 1 then some 12 else some 4)
      = (Except.ok (some 12), [5, 7]) := by
  have h := waitForMarker_spec.2.2.1 5
    { checkInterval := 7, maxAttempts := 3, minSize := 10 }
    (some 3) (fun t => if t = 1 then some 12 else some 4) 1 12
    (by intro sz hsz; cases hsz; decide) (by decide)
    (by intro t ht; interval_cases t; exact ⟨4, by decide⟩)
    (by decide) (by decide)
  simpa using h

/-! ### C5: content-addressed skip in the S3 sync -/

/-- C5: when the destination stat succeeds and the object's entity tag equals
the MD5 of the source computed at the start, `syncWithBucket` performs no
upload (`FPutObject` is not called — second component `false`) and reports
success with the existing object's key, checksum, size and last-modified
time; hence a rerun over an unchanged, already-replicated input uploads
nothing. -/
theorem syncWithBucket_skips_on_matching_etag
    (src c : String) (attr : ObjectInfo)
    (fileMD5First : Except String String) (statObject fput : Except String ObjectInfo)
    (fileMD5Again : Except String String) (localSize : Except String Int)
    (hmd5 : fileMD5First = Except.ok c)
    (hstat : statObject = Except.ok attr)
    (hetag : attr.ETag = c) :
    syncWithBucket src fileMD5First statObject fput fileMD5Again localSize
      = (Except.ok (syncUploadInfo src attr.Key attr.ETag attr.Size attr.LastModified),
         false) := by
  subst hmd5
  subst hstat
  simp only [syncWithBucket]
  rw [if_pos hetag.symm]

/-- Witness for C5: source MD5 `d41d8c`, destination object carrying the same
entity tag; the sync returns the existing object's metadata and no upload
happens even though `FPutObject` would have failed. -/
theorem syncWithBucket_skips_on_matching_etag_witness :
    syncWithBucket "/watch/a.gz" (Except.ok "d41d8c")
        (Except.ok { Key := "pfx/a.gz", ETag := "d41d8c", Size := 5, LastModified := 9 })
        (Except.error "network down") (Except.ok "d41d8c") (Except.ok 5)
      = (Except.ok (syncUploadInfo "/watch/a.gz" "pfx/a.gz" "d41d8c" 5 9), false) :=
  syncWithBucket_skips_on_matching_etag "/watch/a.gz" "d41d8c"
    { Key := "pfx/a.gz", ETag := "d41d8c", Size := 5, LastModified := 9 }
    _ _ (Except.error "network down") (Except.ok "d41d8c") (Except.ok 5) rfl rfl rfl

/-! ### C6: the walker sorts only within a read batch -/

/-- C6: the walker hands a directory's entries to the callback sorted only
within each `Readdirnames(batchSize)` batch, not across batches.  With batch
size 2 and the operating system returning `b, c, a`, the callback sees
`b, c, a` instead of the full lexical order `a, b, c`; and the same logical
directory read in a different operating-system order (`a, c, b`) yields a
different visit order, so traversal order is not determined by the file tree
alone once a directory exceeds the batch size. -/
theorem walker_batch_order_not_lexical :
    dirVisitOrder 2 ["b", "c", "a"] = ["b", "c", "a"] ∧
    sortStrings ["b", "c", "a"] = ["a", "b", "c"] ∧
    dirVisitOrder 2 ["b", "c", "a"] ≠ sortStrings ["b", "c", "a"] ∧
    dirVisitOrder 2 ["a", "c", "b"] = ["a", "c", "b"] ∧
    dirVisitOrder 2 ["b", "c", "a"] ≠ dirVisitOrder 2 ["a", "c", "b"] ∧
    dirVisitOrder 4 ["b", "c", "a"] = ["a", "b", "c"] := by
  decide

/-! ### C7: the empty marker pattern -/

theorem lastElemRev_spec : ∀ (l acc : List Char),
    lastElemRev l acc = (l.takeWhile fun c => !(c == '/')).reverse ++ acc := by
  intro l
  induction l with
  | nil => intro acc; simp [lastElemRev]
  | cons c rest ih =>
    intro acc
    by_cases h : c = '/'
    · subst h; simp [lastElemRev]
    · simp [lastElemRev, h, List.takeWhile_cons, ih]

theorem extGo_empty : ∀ (l acc : List Char),
    (extGo l acc = "") ↔
      ((l.takeWhile fun c => !(c == '/')).any (fun c => c == '.') = false) := by
  intro l
  induction l with
  | nil => intro acc; simp [extGo]
  | cons c rest ih =>
    intro acc
    by_cases hs : c = '/'
    · subst hs; simp [extGo]
    · by_cases hd : c = '.'
      · subst hd
        simp [extGo, List.takeWhile_cons, String.ext_iff]
      · simp [extGo, hs, hd, List.takeWhile_cons, ih]

/-- C7 counterexample: construction accepts the empty marker pattern, yet a
regular file with extension `.txt` produces no hit — the empty pattern does
not mean "match everything". -/
theorem scanner_empty_pattern_counterexample :
    newScanner "scanner-1" "/watch" "" 16
        = Except.ok { id := "scanner-1", directory := "/watch", pattern := "", batchSize := 16 } ∧
    scanEmits { id := "scanner-1", directory := "/watch", pattern := "", batchSize := 16 }
        true "/watch/b.txt" = false :=
  ⟨rfl, rfl⟩

/-- C7 amended: construction accepts the empty marker pattern, and a scanner
configured with it emits a hit exactly for the regular files whose final path
element contains no dot (`filepath.Ext` empty) — not for every regular file. -/
theorem scanner_empty_pattern_matches_extensionless (s : Scanner) (r : Bool) (p : String)
    (hpat : s.pattern = "") :
    scanEmits s r p = (r && !hasDotInLastElem p) := by
  rw [scanEmits, hpat, hasDotInLastElem, lastElemRev_spec]
  simp only [List.append_nil, List.any_reverse]
  congr 1
  cases hA : (p.toList.reverse.takeWhile fun c => !(c == '/')).any (fun c => c == '.') with
  | false =>
    have hempty : extGo p.data.reverse [] = "" := (extGo_empty p.toList.reverse []).mpr hA
    simp [filepathExt, hempty]
  | true =>
    have hne : ¬ extGo p.data.reverse [] = "" := by
      intro hcontra
      have := (extGo_empty p.toList.reverse []).mp hcontra
      rw [this] at hA
      cases hA
    simp [filepathExt, hne]

/-- Witness for the amended C7: with the empty pattern, the extensionless
regular file `/watch/data` is emitted and the characterization agrees. -/
theorem scanner_empty_pattern_matches_extensionless_witness :
    scanEmits { id := "scanner-1", directory := "/watch", pattern := "", batchSize := 16 }
        true "/watch/data"
      = (true && !hasDotInLastElem "/watch/data") ∧
    hasDotInLastElem "/watch/data" = false ∧
    scanEmits { id := "scanner-1", directory := "/watch", pattern := "", batchSize := 16 }
        true "/watch/data" = true :=
  ⟨scanner_empty_pattern_matches_extensionless _ true "/watch/data" rfl,
   by decide, by decide⟩

/-! ### C8: the error-channel bound of the parallel put -/

/-- C8: the dispatch loop of `runParallel` pushes a missing-candidate error
and still launches the sync goroutine for the same candidate, whose failure
pushes a second error; a single missing candidate whose sync also fails thus
sends 2 errors into a channel of capacity `len(candidates) = 1` — the claimed
bound of at most `len(candidates)` sends is violated at exactly the case the
claim cites, and the second send can block before the wait-group barrier. -/
theorem runParallel_error_sends_exceed_capacity :
    runParallelErrors (fun _ => false)
        (fun _ _ => Except.error "open /watch/missing.gz: no such file or directory")
        "s3" "/watch" "pfx" ["/watch/missing.gz"]
      = [missingCandidateError "/watch/missing.gz" "s3",
         uploadFailedError "/watch/missing.gz" "s3"
           "open /watch/missing.gz: no such file or directory"] ∧
    errChanCapacity ["/watch/missing.gz"] = 1 ∧
    ¬ (runParallelErrors (fun _ => false)
        (fun _ _ => Except.error "open /watch/missing.gz: no such file or directory")
        "s3" "/watch" "pfx" ["/watch/missing.gz"]).length
      ≤ errChanCapacity ["/watch/missing.gz"] := by
  decide

/-! ### C9: an errored backend result lists no outcomes -/

/-- C9: whenever `handler.Put` emits a `StorageResult` whose `Error` is
non-nil, its `UploadResults` is the nil slice: `runParallel` returns
`nil, <-errChan` on any recorded error, discarding the outcomes of the
candidates that synced successfully. -/
theorem handlerPut_error_discards_outcomes
    (preSyncErr : Option String) (onDisk : String → Bool)
    (syncFile : String → String → Except String UploadInfo)
    (hId stype rootDir pathPfx markerPath : String) (candidates : List String)
    (h : (handlerPut preSyncErr onDisk syncFile hId stype rootDir pathPfx
            markerPath candidates).Error ≠ none) :
    (handlerPut preSyncErr onDisk syncFile hId stype rootDir pathPfx
        markerPath candidates).UploadResults = none := by
  unfold handlerPut runParallelModel at h ⊢
  cases preSyncErr with
  | some e => simp
  | none =>
    by_cases he : (runParallelErrors onDisk syncFile stype rootDir pathPfx candidates).isEmpty
    · simp [he] at h
    · simp [he]

/-- Witness for C9: one candidate missing on disk with a failing sync; the
emitted result carries an error and a nil `UploadResults`. -/
theorem handlerPut_error_discards_outcomes_witness :
    (handlerPut none (fun _ => false) (fun _ _ => Except.error "no such file")
        "h1" "s3" "/watch" "pfx" "/watch/m.mf" ["/watch/m.gz"]).Error ≠ none ∧
    (handlerPut none (fun _ => false) (fun _ _ => Except.error "no such file")
        "h1" "s3" "/watch" "pfx" "/watch/m.mf" ["/watch/m.gz"]).UploadResults = none :=
  ⟨by decide,
   handlerPut_error_discards_outcomes none (fun _ => false)
     (fun _ _ => Except.error "no such file")
     "h1" "s3" "/watch" "pfx" "/watch/m.mf" ["/watch/m.gz"] (by decide)⟩

/-! ### C10: a matcher failure skips the marker silently -/

theorem prepareUploadCandidatesGo_error_of_mem (e : String) :
    ∀ (outcomes : List (Except String (List String))) (acc : List String),
      Except.error e ∈ outcomes →
      ∃ e', prepareUploadCandidatesGo outcomes acc = Except.error e' := by
  intro outcomes
  induction outcomes with
  | nil => intro acc h; simp at h
  | cons o rest ih =>
    intro acc h
    cases o with
    | error e0 => exact ⟨_, rfl⟩
    | ok ms =>
      rcases List.mem_cons.mp h with h1 | h2
      · cases h1
      · exact ih (acc ++ ms) h2

/-- C10: when any configured file matcher fails for a marker (unknown matcher
type or match error), candidate preparation returns an error and the upload
stage skips the marker entirely and silently: no storage `Put` is launched
and no `ProcessorResult` is emitted downstream, so nothing reaches the
remove stage or the pipeline's error channel for this marker. -/
theorem upload_matcher_error_skips_silently
    (waitInfo : Option Int) (matcherOutcomes : List (Except String (List String)))
    (storageResponses : List StorageResult) (markerPath traceId e : String)
    (herr : Except.error e ∈ matcherOutcomes) :
    (∃ e', prepareUploadCandidates matcherOutcomes = Except.error e') ∧
    uploadStep true (Except.ok waitInfo) matcherOutcomes storageResponses markerPath traceId
      = (none, false) := by
  obtain ⟨e', he'⟩ := prepareUploadCandidatesGo_error_of_mem e matcherOutcomes [] herr
  refine ⟨⟨e', he'⟩, ?_⟩
  simp [uploadStep, prepareUploadCandidates, he']

/-- Witness for C10: a single matcher config with an unknown matcher type;
the marker is present and ready, yet nothing is emitted and no put runs. -/
theorem upload_matcher_error_skips_silently_witness :
    Except.error "unknown file matcher type: glob2" ∈
      ([Except.error "unknown file matcher type: glob2"] :
        List (Except String (List String))) ∧
    uploadStep true (Except.ok (some 3))
        [Except.error "unknown file matcher type: glob2"] [] "/watch/m.mf" "t"
      = (none, false) :=
  ⟨List.mem_singleton.mpr rfl,
   (upload_matcher_error_skips_silently (some 3)
     [Except.error "unknown file matcher type: glob2"] [] "/watch/m.mf" "t"
     "unknown file matcher type: glob2" (List.mem_singleton.mpr rfl)).2⟩

end Cheetah
